import Mathlib

/-!
# site_cleaner: the "Refresh Sites" form hook

Shallow embedding of `site_cleaner/public/js/site_deletion_request.js`.

The script consists of three nested functions:

* `refresh(frm)`, registered for the doctype `Site Deletion Request`, which adds a
  custom button;
* the click handler of that button, which issues one `frappe.call`;
* the `callback(r)` of that call, which clears the child table `sites_to_delete`,
  appends one row per element of `r.message`, and refreshes the field display.

The host framework (the form object `frm`, `frappe.call`, the translation function
`__`) is not part of the repository.  It is modelled here as a state `Host` carrying the
in-memory document, the persisted document, the translation function and the ordered
log of host operations performed so far.  JavaScript code is embedded as state passing
functions `Host → Completion × Host`; an exception keeps the state reached when it was
raised.  The two closures that are handed to the host are represented by first-order
tags (`Handler`, `Callback`) together with the functions that run them.
-/

namespace SiteCleaner

/-! ## Values -/

/-- JavaScript values as they can arrive in a decoded JSON payload, plus `undefined`
(the value read from an absent property). -/
inductive JSVal where
  | undefined
  | null
  | bool (b : Bool)
  | num (q : Rat)
  | str (s : String)
  | arr (items : List JSVal)
  | obj (props : List (String × JSVal))

/-- A child-table row, kept as the object literal of field values it was created from. -/
abbrev Row := List (String × JSVal)

/-- Reading `row.site_name`: the stored value, or `undefined` when the property is absent. -/
def site_name (row : Row) : JSVal :=
  (row.lookup "site_name").getD JSVal.undefined

/-- The response object `r` handed to the callback; an absent `message` reads as
`undefined`. -/
structure Response where
  message : JSVal

/-- Exceptions raised by the JavaScript runtime. -/
inductive JSError where
  | TypeError
  deriving DecidableEq

/-- How a function body ends: normally, or with an exception that nothing caught. -/
inductive Completion where
  | normal
  | threw (e : JSError)
  deriving DecidableEq

/-! ## Host state -/

/-- Tag of the anonymous click handler (source lines 3-14). -/
inductive Handler where
  | refresh_sites_click
  deriving DecidableEq

/-- Tag of the anonymous response callback (source lines 6-12). -/
inductive Callback where
  | get_bench_sites_callback
  deriving DecidableEq

/-- Operations of the host framework that a script can invoke. -/
inductive HostCall where
  | add_custom_button (label : String) (handler : Handler)
  | call (method : String) (args : Option Row) (callback : Callback)
  | clear_table (fieldname : String)
  | add_child (fieldname : String) (values : Row)
  | refresh_field (fieldname : String)
  | save

/-- The document behind a form: child tables and scalar fields, by field name. -/
structure Doc where
  tables : String → List Row
  values : String → JSVal

/-- Replace the rows of one child table, leaving every other field alone. -/
def Doc.setTable (d : Doc) (fieldname : String) (rows : List Row) : Doc :=
  ⟨fun f => if f = fieldname then rows else d.tables f, d.values⟩

/-- State of the host: the in-memory document of the form, its last persisted copy, the
translation function of the active locale (the global `__`, which is not in the
repository and is taken as given), and the log of host operations (oldest first). -/
structure Host where
  doc : Doc
  saved : Doc
  translate : String → String
  calls : List HostCall

/-- A JavaScript function body: runs on the host state, ends normally or by throwing. -/
abbrev JS := Host → Completion × Host

/-- Statement sequencing `a; b`: `b` runs only if `a` completed normally. -/
def seq (a b : JS) : JS := fun h =>
  match a h with
  | (Completion.normal, h1) => b h1
  | (Completion.threw e, h1) => (Completion.threw e, h1)

/-- Append an entry to the log of host operations. -/
def Host.record (h : Host) (c : HostCall) : Host :=
  { h with calls := h.calls ++ [c] }

/-! ## Host operations used by the script -/

/-- Modelled from the spec: `frm.add_custom_button(label, handler)`, which is not in the
repository.  It attaches a labeled action control to the form toolbar; the document is not
touched. -/
def frm_add_custom_button (label : String) (handler : Handler) : JS := fun h =>
  (Completion.normal, h.record (HostCall.add_custom_button label handler))

/-- Modelled from the spec: `frappe.call(opts)`, which is not in the repository.  It issues
one asynchronous request and returns at once; the callback is kept by the host and run
later, if and when a response arrives. -/
def frappe_call (method : String) (args : Option Row) (callback : Callback) : JS := fun h =>
  (Completion.normal, h.record (HostCall.call method args callback))

/-- Modelled from the spec: `frm.clear_table(fieldname)`, which is not in the repository.
It removes all existing rows of the child table. -/
def frm_clear_table (fieldname : String) : JS := fun h =>
  (Completion.normal,
    { h with doc := h.doc.setTable fieldname [],
             calls := h.calls ++ [HostCall.clear_table fieldname] })

/-- Modelled from the spec: `frm.add_child(fieldname, values)`, which is not in the
repository.  It appends one new row holding `values` at the end of the child table. -/
def frm_add_child (fieldname : String) (values : Row) : JS := fun h =>
  (Completion.normal,
    { h with doc := h.doc.setTable fieldname (h.doc.tables fieldname ++ [values]),
             calls := h.calls ++ [HostCall.add_child fieldname values] })

/-- Modelled from the spec: `frm.refresh_field(fieldname)`, which is not in the
repository.  It redraws the field; the document is not touched. -/
def frm_refresh_field (fieldname : String) : JS := fun h =>
  (Completion.normal, h.record (HostCall.refresh_field fieldname))

/-- The loop of `Array.prototype.forEach`: the function is applied to the items from left
to right, and an exception ends the loop. -/
def forEachItems (f : JSVal → JS) : List JSVal → JS
  | [] => fun h => (Completion.normal, h)
  | x :: rest => seq (f x) (forEachItems f rest)

/-- The expression `v.forEach(f)`.  Only arrays have a callable `forEach`: reading a
property of `undefined` or `null` raises a `TypeError`, and on a string, number, boolean
or decoded JSON object the property is not a function, so the call raises a `TypeError`
as well. -/
def forEach (v : JSVal) (f : JSVal → JS) : JS :=
  match v with
  | JSVal.arr items => forEachItems f items
  | _ => fun h => (Completion.threw JSError.TypeError, h)

/-! ## The script -/

/-- Source lines 6-12: `callback: function(r) { ... }`. -/
def callback (r : Response) : JS :=
  seq (frm_clear_table "sites_to_delete")
    (seq (forEach r.message (fun site => frm_add_child "sites_to_delete" [("site_name", site)]))
      (frm_refresh_field "sites_to_delete"))

/-- Source lines 3-14: the click handler, `function() { frappe.call({...}); }`.  The options
object has a `method` and a `callback` and no `args`. -/
def refresh_sites_click : JS :=
  frappe_call "site_cleaner.utils.get_bench_sites" none Callback.get_bench_sites_callback

/-- Source lines 2-15: `refresh: function(frm) { frm.add_custom_button(...); }`. -/
def refresh : JS := fun h =>
  frm_add_custom_button (h.translate "Refresh Sites") Handler.refresh_sites_click h

/-- Source lines 1 and 16: `frappe.ui.form.on('Site Deletion Request', { refresh: ... })`,
the table of form event handlers the script registers. -/
def form_events (doctype event : String) : Option JS :=
  if doctype = "Site Deletion Request" ∧ event = "refresh" then some refresh else none

/-- The host raising a form event: the registered handler runs, if there is one. -/
def trigger (doctype event : String) : JS :=
  match form_events doctype event with
  | some handler => handler
  | none => fun h => (Completion.normal, h)

/-- The host running the handler of a pressed action control. -/
def press : Handler → JS
  | Handler.refresh_sites_click => refresh_sites_click

/-- The host delivering a response to the callback of a request. -/
def deliver : Callback → Response → JS
  | Callback.get_bench_sites_callback, r => callback r

/-! ## Reading the state -/

/-- The rows of the child table `sites_to_delete`. -/
def sites_to_delete (h : Host) : List Row :=
  h.doc.tables "sites_to_delete"

/-- The row that the callback creates for one element of the response. -/
def siteRow (site : JSVal) : Row := [("site_name", site)]

/-- A response whose message is the given sequence of strings. -/
def stringsResponse (sites : List String) : Response :=
  ⟨JSVal.arr (sites.map JSVal.str)⟩

/-- Labels of the action controls registered in a log of host operations. -/
def buttonLabels : List HostCall → List String
  | [] => []
  | HostCall.add_custom_button label _ :: rest => label :: buttonLabels rest
  | _ :: rest => buttonLabels rest

/-- Whether a value is a sequence, that is a JavaScript array. -/
def isArray : JSVal → Bool
  | JSVal.arr _ => true
  | _ => false

/-- An example document: the table `sites_to_delete` holds one row from an earlier
invocation, every other table is empty and no scalar field is set. -/
def docWithOldRow : Doc :=
  ⟨fun f => if f = "sites_to_delete" then [siteRow (JSVal.str "old.local")] else [],
   fun _ => JSVal.undefined⟩

/-- An example host state: the form shows `docWithOldRow`, texts are not translated, and
no host operation has been performed yet. -/
def hostWithOldRow : Host :=
  ⟨docWithOldRow, docWithOldRow, fun txt => txt, []⟩

/-- An example host state with a German locale, in which the text "Refresh Sites" has a
translation. -/
def hostGerman : Host :=
  ⟨docWithOldRow, docWithOldRow,
   fun txt => if txt = "Refresh Sites" then "Sites aktualisieren" else txt, []⟩

/-- Whether a host operation is a save of the form. -/
def HostCall.isSave : HostCall → Bool
  | HostCall.save => true
  | _ => false

/-- Whether a host operation is a remote request. -/
def HostCall.isCall : HostCall → Bool
  | HostCall.call _ _ _ => true
  | _ => false

/-! ## Auxiliary lemmas -/

/-- The loop of the callback appends one row per item, in order, and cannot throw. -/
theorem forEachItems_add_child (items : List JSVal) (h : Host) :
    forEachItems (fun site => frm_add_child "sites_to_delete" [("site_name", site)]) items h =
      (Completion.normal,
        { h with doc := h.doc.setTable "sites_to_delete"
                          (h.doc.tables "sites_to_delete" ++ items.map siteRow),
                 calls := h.calls ++ items.map
                          (fun site => HostCall.add_child "sites_to_delete" (siteRow site)) }) := by
  induction items generalizing h with
  | nil =>
    cases h with
    | mk doc saved translate calls =>
      cases doc with
      | mk tables values =>
        simp only [forEachItems, List.map_nil, List.append_nil, Doc.setTable]
        congr
        funext f
        split <;> simp_all
  | cons x rest ih =>
    simp only [forEachItems, seq, frm_add_child, ih, Doc.setTable, siteRow, List.map_cons]
    simp
    funext f
    split <;> simp_all

/-- What the callback does when the message is an array. -/
theorem callback_arr (items : List JSVal) (h : Host) :
    callback ⟨JSVal.arr items⟩ h =
      (Completion.normal,
        { h with doc := h.doc.setTable "sites_to_delete" (items.map siteRow),
                 calls := h.calls ++ HostCall.clear_table "sites_to_delete" ::
                   (items.map (fun site => HostCall.add_child "sites_to_delete" (siteRow site))
                     ++ [HostCall.refresh_field "sites_to_delete"]) }) := by
  simp only [callback, seq, frm_clear_table, forEach, forEachItems_add_child,
    frm_refresh_field, Host.record, Doc.setTable]
  simp
  funext f
  split <;> simp_all

/-- What the callback does when the message is not an array. -/
theorem callback_not_arr (r : Response) (h : Host) (hr : isArray r.message = false) :
    callback r h =
      (Completion.threw JSError.TypeError,
        { h with doc := h.doc.setTable "sites_to_delete" [],
                 calls := h.calls ++ [HostCall.clear_table "sites_to_delete"] }) := by
  cases r with
  | mk message =>
    cases message <;> simp_all [callback, seq, frm_clear_table, forEach, isArray]

/-- Reading `site_name` from the row created for a value gives that value back. -/
theorem site_name_siteRow (v : JSVal) : site_name (siteRow v) = v := by
  simp [site_name, siteRow, List.lookup]

/-! ## The table after the callback -/

/-- C1: for every initial host state and every response whose message is a sequence of
strings, the callback completes normally and leaves in `sites_to_delete` exactly one row
per string, in response order: the table is the list of rows `{site_name: s}`, it has as
many rows as the response has strings, and at every position the `site_name` of the row
is the string at that position of the response (both are absent past the end).  An empty
response leaves zero rows. -/
theorem C1_callback_table (h : Host) (sites : List String) :
    (callback (stringsResponse sites) h).1 = Completion.normal ∧
    sites_to_delete (callback (stringsResponse sites) h).2 =
      sites.map (fun s => siteRow (JSVal.str s)) ∧
    (sites_to_delete (callback (stringsResponse sites) h).2).length = sites.length ∧
    (∀ i : Nat, ((sites_to_delete (callback (stringsResponse sites) h).2)[i]?).map site_name =
      (sites[i]?).map JSVal.str) ∧
    sites_to_delete (callback (stringsResponse []) h).2 = [] := by
  have key : ∀ l : List String, sites_to_delete (callback (stringsResponse l) h).2 =
      l.map (fun s => siteRow (JSVal.str s)) := by
    intro l
    simp [stringsResponse, callback_arr, sites_to_delete, Doc.setTable, List.map_map,
      Function.comp_def]
  refine ⟨by simp [stringsResponse, callback_arr], key sites, by simp [key], ?_, by simp [key]⟩
  intro i
  rw [key]
  have hname : (site_name ∘ fun s => siteRow (JSVal.str s)) = JSVal.str :=
    funext fun s => site_name_siteRow (JSVal.str s)
  simp only [List.getElem?_map, Option.map_map, hname]

/-- C2: clearing is unconditional.  For every two initial host states and every response
that is a sequence of strings, the callback leaves the same table `sites_to_delete`, so no
earlier row survives.  Hence, after two clicks whose callbacks run one after the other, the
table holds the rows of the callback that ran last: the rows of `b` for the order `a`, `b`
and the rows of `a` for the order `b`, `a`. -/
theorem C2_clearing_unconditional (h1 h2 h : Host) (sites a b : List String) :
    sites_to_delete (callback (stringsResponse sites) h1).2 =
      sites_to_delete (callback (stringsResponse sites) h2).2 ∧
    sites_to_delete
        (seq (press Handler.refresh_sites_click) (seq (press Handler.refresh_sites_click)
          (seq (deliver Callback.get_bench_sites_callback (stringsResponse a))
            (deliver Callback.get_bench_sites_callback (stringsResponse b)))) h).2 =
      b.map (fun s => siteRow (JSVal.str s)) ∧
    sites_to_delete
        (seq (press Handler.refresh_sites_click) (seq (press Handler.refresh_sites_click)
          (seq (deliver Callback.get_bench_sites_callback (stringsResponse b))
            (deliver Callback.get_bench_sites_callback (stringsResponse a)))) h).2 =
      a.map (fun s => siteRow (JSVal.str s)) := by
  simp [stringsResponse, callback_arr, sites_to_delete, Doc.setTable, List.map_map,
    Function.comp_def, seq, press, deliver, refresh_sites_click, frappe_call, Host.record]

/-- C3: idempotence.  For every initial host state and every response that is a sequence
of strings, running the callback twice in sequence with that response completes normally
and leaves the same document, in particular the same table `sites_to_delete`, as running
it once. -/
theorem C3_callback_idempotent (h : Host) (sites : List String) :
    (seq (callback (stringsResponse sites)) (callback (stringsResponse sites)) h).1 =
      Completion.normal ∧
    (seq (callback (stringsResponse sites)) (callback (stringsResponse sites)) h).2.doc =
      (callback (stringsResponse sites) h).2.doc ∧
    sites_to_delete
        (seq (callback (stringsResponse sites)) (callback (stringsResponse sites)) h).2 =
      sites_to_delete (callback (stringsResponse sites) h).2 := by
  simp [stringsResponse, callback_arr, sites_to_delete, Doc.setTable, seq]
  funext f
  split <;> simp_all

/-- C4: order preservation.  For every initial host state and every sequence of strings,
the rows left by the callback for the reversed sequence are the reverse of the rows left
by the callback for the sequence itself. -/
theorem C4_callback_reverse (h : Host) (sites : List String) :
    sites_to_delete (callback (stringsResponse sites.reverse) h).2 =
      (sites_to_delete (callback (stringsResponse sites) h).2).reverse := by
  simp [stringsResponse, callback_arr, sites_to_delete, Doc.setTable, List.map_reverse]

/-! ## The click handler and the refresh hook -/

/-- C5 (claim as stated, refuted): with one row in the table before the click, the table
is not empty after the click handler has run without any callback being invoked. -/
theorem C5_counterexample :
    sites_to_delete (press Handler.refresh_sites_click hostWithOldRow).2 ≠ [] := by
  simp [sites_to_delete, press, refresh_sites_click, frappe_call, Host.record, hostWithOldRow,
    docWithOldRow]

/-- C5 (amended): when the callback never fires, the click leaves the table as it was.
For every initial host state, the click handler completes normally, its only effect is one
logged request, and the document, in particular the table `sites_to_delete`, has the same
contents after the click as before it. -/
theorem C5_click_keeps_table (h : Host) :
    press Handler.refresh_sites_click h =
      (Completion.normal,
        h.record (HostCall.call "site_cleaner.utils.get_bench_sites" none
          Callback.get_bench_sites_callback)) ∧
    (press Handler.refresh_sites_click h).2.doc = h.doc ∧
    sites_to_delete (press Handler.refresh_sites_click h).2 = sites_to_delete h := by
  simp [sites_to_delete, press, refresh_sites_click, frappe_call, Host.record]

/-- C8 (claim as stated, refuted): under a locale that translates the text
"Refresh Sites", the control registered by the refresh event is not labeled
"Refresh Sites". -/
theorem C8_counterexample :
    buttonLabels (trigger "Site Deletion Request" "refresh" hostGerman).2.calls ≠
      ["Refresh Sites"] := by
  simp [buttonLabels, trigger, form_events, refresh, frm_add_custom_button, Host.record,
    hostGerman]

/-- C8 (amended): each refresh event of a `Site Deletion Request` form completes normally
and performs exactly one host operation, the registration of one action control whose label
is the host translation of "Refresh Sites" and whose handler is the click handler; it issues
no request and leaves the document unchanged.  The label is "Refresh Sites" itself whenever
the translation leaves that text as it is.  Each press of the control completes normally and
performs exactly one host operation, a request to `site_cleaner.utils.get_bench_sites`
without arguments, and leaves the document unchanged. -/
theorem C8_refresh_and_click (h : Host) :
    trigger "Site Deletion Request" "refresh" h =
      (Completion.normal,
        h.record (HostCall.add_custom_button (h.translate "Refresh Sites")
          Handler.refresh_sites_click)) ∧
    (trigger "Site Deletion Request" "refresh" h).2.doc = h.doc ∧
    ((trigger "Site Deletion Request" "refresh" h).2.calls.drop h.calls.length).any
      HostCall.isCall = false ∧
    (h.translate "Refresh Sites" = "Refresh Sites" →
      buttonLabels ((trigger "Site Deletion Request" "refresh" h).2.calls.drop h.calls.length) =
        ["Refresh Sites"]) ∧
    press Handler.refresh_sites_click h =
      (Completion.normal,
        h.record (HostCall.call "site_cleaner.utils.get_bench_sites" none
          Callback.get_bench_sites_callback)) ∧
    (press Handler.refresh_sites_click h).2.doc = h.doc := by
  refine ⟨?_, ?_, ?_, ?_, ?_, ?_⟩ <;>
    simp +contextual [buttonLabels, trigger, form_events, refresh, frm_add_custom_button,
      Host.record, press, refresh_sites_click, frappe_call, HostCall.isCall]

/-- C8 (amended), instance: without a translation for the text, the control registered by
the refresh event is labeled "Refresh Sites". -/
theorem C8_refresh_and_click_witness :
    hostWithOldRow.translate "Refresh Sites" = "Refresh Sites" ∧
    buttonLabels ((trigger "Site Deletion Request" "refresh" hostWithOldRow).2.calls.drop
      hostWithOldRow.calls.length) = ["Refresh Sites"] :=
  ⟨rfl, (C8_refresh_and_click hostWithOldRow).2.2.2.1 rfl⟩

/-! ## Malformed responses, frame and effect order -/

/-- C6: the callback has no guarded error branch.  For every host state and every response,
the callback completes normally if the message is a sequence and ends with an uncaught
`TypeError` if it is not; in particular it throws for an absent (undefined) message, for
null, and for every boolean, number, string and plain object, and it completes normally for
every array. -/
theorem C6_callback_completion (h : Host) (r : Response) :
    (callback r h).1 =
      (if isArray r.message then Completion.normal else Completion.threw JSError.TypeError) ∧
    (callback ⟨JSVal.undefined⟩ h).1 = Completion.threw JSError.TypeError ∧
    (callback ⟨JSVal.null⟩ h).1 = Completion.threw JSError.TypeError ∧
    (∀ b : Bool, (callback ⟨JSVal.bool b⟩ h).1 = Completion.threw JSError.TypeError) ∧
    (∀ q : Rat, (callback ⟨JSVal.num q⟩ h).1 = Completion.threw JSError.TypeError) ∧
    (∀ s : String, (callback ⟨JSVal.str s⟩ h).1 = Completion.threw JSError.TypeError) ∧
    (∀ props : List (String × JSVal),
      (callback ⟨JSVal.obj props⟩ h).1 = Completion.threw JSError.TypeError) ∧
    (∀ items : List JSVal, (callback ⟨JSVal.arr items⟩ h).1 = Completion.normal) := by
  refine ⟨?_, ?_, ?_, ?_, ?_, ?_, ?_, ?_⟩
  · cases r with
    | mk message =>
      cases message with
      | arr items => simp [callback_arr, isArray]
      | _ => simp [callback_not_arr, isArray]
  all_goals first
    | (intro x; simp [callback_arr])
    | (intro x; simp [callback_not_arr, isArray])
    | simp [callback_not_arr, isArray]

/-- C7: frame.  For every host state, every response that is a sequence of strings and
every field other than `sites_to_delete`, the callback leaves the rows of that field, all
scalar fields, the persisted copy of the document and the translation function as they
were, and none of the host operations it performs is a save. -/
theorem C7_callback_frame (h : Host) (sites : List String) (f : String)
    (hf : f ≠ "sites_to_delete") :
    (callback (stringsResponse sites) h).2.doc.tables f = h.doc.tables f ∧
    (callback (stringsResponse sites) h).2.doc.values = h.doc.values ∧
    (callback (stringsResponse sites) h).2.saved = h.saved ∧
    (callback (stringsResponse sites) h).2.translate = h.translate ∧
    ((callback (stringsResponse sites) h).2.calls.drop h.calls.length).any
      HostCall.isSave = false := by
  simp [stringsResponse, callback_arr, Doc.setTable, hf, HostCall.isSave]

/-- C7, instance: the field `title` of the example form, for the response
`["site-a.local"]`. -/
theorem C7_callback_frame_witness :
    "title" ≠ "sites_to_delete" ∧
    ((callback (stringsResponse ["site-a.local"]) hostWithOldRow).2.doc.tables "title" =
        hostWithOldRow.doc.tables "title" ∧
      (callback (stringsResponse ["site-a.local"]) hostWithOldRow).2.doc.values =
        hostWithOldRow.doc.values ∧
      (callback (stringsResponse ["site-a.local"]) hostWithOldRow).2.saved =
        hostWithOldRow.saved ∧
      (callback (stringsResponse ["site-a.local"]) hostWithOldRow).2.translate =
        hostWithOldRow.translate ∧
      ((callback (stringsResponse ["site-a.local"]) hostWithOldRow).2.calls.drop
        hostWithOldRow.calls.length).any HostCall.isSave = false) :=
  ⟨by decide, C7_callback_frame hostWithOldRow ["site-a.local"] "title" (by decide)⟩

/-- C9: effect order.  For every host state and every response that is a sequence of
strings, the callback adds to the log of host operations exactly: one clear of
`sites_to_delete`, then one row append to `sites_to_delete` per string in response order,
then one display refresh of `sites_to_delete` (also when the response is empty). -/
theorem C9_callback_effects (h : Host) (sites : List String) :
    (callback (stringsResponse sites) h).2.calls =
      h.calls ++ [HostCall.clear_table "sites_to_delete"] ++
        sites.map (fun s => HostCall.add_child "sites_to_delete" [("site_name", JSVal.str s)]) ++
        [HostCall.refresh_field "sites_to_delete"] ∧
    (callback (stringsResponse []) h).2.calls =
      h.calls ++ [HostCall.clear_table "sites_to_delete",
        HostCall.refresh_field "sites_to_delete"] := by
  simp [stringsResponse, callback_arr, List.map_map, Function.comp_def, siteRow]

/-- C10: a malformed response is not atomic.  For every host state and every response
whose message is not a sequence, the callback ends with a `TypeError` in a state where the
table `sites_to_delete` has zero rows and the only host operation performed is the clear:
no row was appended and the display was not refreshed. -/
theorem C10_malformed_not_atomic (h : Host) (r : Response) (hr : isArray r.message = false) :
    (callback r h).1 = Completion.threw JSError.TypeError ∧
    sites_to_delete (callback r h).2 = [] ∧
    (callback r h).2.calls = h.calls ++ [HostCall.clear_table "sites_to_delete"] := by
  simp [callback_not_arr, hr, sites_to_delete, Doc.setTable]

/-- C10, instance: an absent message on the example form, whose table held one row. -/
theorem C10_malformed_not_atomic_witness :
    isArray (Response.mk JSVal.undefined).message = false ∧
    sites_to_delete hostWithOldRow ≠ [] ∧
    ((callback ⟨JSVal.undefined⟩ hostWithOldRow).1 = Completion.threw JSError.TypeError ∧
      sites_to_delete (callback ⟨JSVal.undefined⟩ hostWithOldRow).2 = [] ∧
      (callback ⟨JSVal.undefined⟩ hostWithOldRow).2.calls =
        hostWithOldRow.calls ++ [HostCall.clear_table "sites_to_delete"]) :=
  ⟨rfl, by simp [sites_to_delete, hostWithOldRow, docWithOldRow],
    C10_malformed_not_atomic hostWithOldRow ⟨JSVal.undefined⟩ rfl⟩

end SiteCleaner
